import Mathlib

/-!
# Shallow embedding of the shipbot release reconciler

This file embeds `cmd/shipbot/main.go` of kopeio-shipbot: the data model
(`Config`, `AssetMapping`, the consumed fields of GitHub releases and release
assets), the pointer-unwrapping helpers `sv`/`iv`/`i64v`/`s`/`b`, commit
resolution (`findCommitSha`, including the `strings.TrimSpace` of the
subprocess output), per-asset reconciliation (`syncAsset`), the asset loop of
`DoRelease`, release find-or-create, and the credential selection in `main`.

External effects (the GitHub API, `os.Stat`, `os.Open`, the `git rev-list`
subprocess) are modelled by a `World` record of responses; each operation
returns its Go result together with the list of registry calls it performed,
so that claims about "no upload call" or "exactly one creation call" are
statements about that trace.
-/

namespace Shipbot

/-- `AssetMapping` from main.go: `{source, githubName, optional}`. -/
structure AssetMapping where
  source : String
  githubName : String
  optional : Bool
deriving DecidableEq, Repr

/-- `Config` from main.go: `{owner, repo, assets}`. -/
structure Config where
  owner : String
  repo : String
  assets : List AssetMapping
deriving DecidableEq, Repr

/-- The fields of `github.RepositoryRelease` the program reads or writes.
In Go all of them are pointers (possibly nil), hence `Option` here. -/
structure RepositoryRelease where
  id : Option Int := none
  tagName : Option String := none
  targetCommitish : Option String := none
  name : Option String := none
  body : Option String := none
  draft : Option Bool := none
deriving DecidableEq, Repr

/-- The fields of `github.ReleaseAsset` the program reads: `Name`, `Size`
(both pointers in Go, hence `Option`). -/
structure ReleaseAsset where
  name : Option String := none
  size : Option Int := none
deriving DecidableEq, Repr

/-- `sv` from main.go: unwrap a `*string`, nil becomes `""`. -/
def sv : Option String → String
  | none => ""
  | some v => v

/-- `iv` from main.go: unwrap a `*int`, nil becomes `0`. -/
def iv : Option Int → Int
  | none => 0
  | some v => v

/-- `i64v` from main.go: unwrap a `*int64`, nil becomes `0`. -/
def i64v : Option Int → Int
  | none => 0
  | some v => v

/-- `s` from main.go: box a string into a `*string`. -/
def s (v : String) : Option String := some v

/-- `b` from main.go: box a bool into a `*bool`. -/
def b (v : Bool) : Option Bool := some v

/-- A registry (network) call made by the program, recorded in traces. -/
inductive Call where
  | listReleases
  | createRelease (release : RepositoryRelease)
  | listReleaseAssets (id : Int)
  | upload (name : String)
deriving DecidableEq, Repr

/-- The responses of the external collaborators: the GitHub registry
(list/create releases, list/upload assets), the local filesystem
(`os.Stat` gives an error or the file size, `os.Open` an error or a handle),
and the stdout of the `git rev-list` subprocess (or its run error). -/
structure World where
  listReleases : Except String (List RepositoryRelease)
  createRelease : RepositoryRelease → Except String RepositoryRelease
  listReleaseAssets : Int → Except String (List ReleaseAsset)
  upload : String → Except String ReleaseAsset
  stat : String → Except String Int
  openFile : String → Except String Unit
  gitRevList : Except String String

/-- Errors of `findCommitSha`: the subprocess run failed, or the trimmed
output did not have length 40 (`"git sha had unexpected length"`). -/
inductive FindShaError where
  | runFailed (msg : String)
  | badLength (sha : String)
deriving DecidableEq, Repr

/-- The distinct error returns of `DoRelease`/`syncAsset`/`main`, one
constructor per `fmt.Errorf`/`glog.Fatalf` site. -/
inductive GoErr where
  | listReleasesFailed (msg : String)
  | findShaFailed (tag : String) (e : FindShaError)
  | createFailed (msg : String)
  | listAssetsFailed (msg : String)
  | statFailed (path : String) (msg : String)
  | assetConflict (name : String)
  | openFailed (path : String) (msg : String)
  | uploadFailed (name : String) (msg : String)
  | credentialsMissing
deriving DecidableEq, Repr

/-- Go's `unicode.IsSpace`, used by `strings.TrimSpace`: the Unicode
White_Space code points. -/
def goIsSpace (c : Char) : Bool :=
  decide (('\t' ≤ c ∧ c ≤ '\x0D') ∨ c = ' ' ∨ c = '\x85' ∨ c = '\xA0' ∨
    c = '\u1680' ∨ ('\u2000' ≤ c ∧ c ≤ '\u200A') ∨ c = '\u2028' ∨ c = '\u2029' ∨
    c = '\u202F' ∨ c = '\u205F' ∨ c = '\u3000')

/-- `strings.TrimSpace` on a character list: drop White_Space characters
from the front, then from the back. -/
def trimSpaceList (cs : List Char) : List Char :=
  ((cs.dropWhile goIsSpace).reverse.dropWhile goIsSpace).reverse

/-- `strings.TrimSpace` on strings. -/
def trimSpace (str : String) : String :=
  ⟨trimSpaceList str.data⟩

/-- `findCommitSha` from main.go, as a function of the subprocess outcome
(`cmd.Run` error, or the captured stdout): trim whitespace, then require
length exactly 40. -/
def findCommitSha (runResult : Except String String) : Except FindShaError String :=
  match runResult with
  | .error e => .error (.runFailed e)
  | .ok out =>
    let sha := trimSpace out
    if sha.length ≠ 40 then .error (.badLength sha)
    else .ok sha

/-- Lines 130-136 of main.go: scan the release list, keeping the latest
release whose unwrapped `TagName` equals `tag` (last match wins). -/
def findRelease (releases : List RepositoryRelease) (tag : String) : Option RepositoryRelease :=
  releases.foldl (fun found release => if sv release.tagName = tag then some release else found) none

/-- Lines 139-144 of main.go: when no explicit `-target` was supplied,
resolve the tag to a commit sha via `findCommitSha`; otherwise use the
explicit target unchanged. -/
def resolveTarget (w : World) (tag target : String) : Except GoErr String :=
  if target = "" then
    match findCommitSha w.gitRevList with
    | .error e => .error (.findShaFailed tag e)
    | .ok sha => .ok sha
  else
    .ok target

/-- Lines 147-153 of main.go: the release record submitted to
`CreateRelease`. -/
def newDraftRelease (tag target : String) : RepositoryRelease :=
  { tagName := s tag
    targetCommitish := s target
    name := s tag
    body := s ("Release " ++ tag ++ " (draft)")
    draft := b true
    id := none }

/-- Lines 168-171 of main.go: index the fetched assets by unwrapped `Name`
into a map; a later duplicate name overwrites an earlier one. -/
def buildAssetMap (assets : List ReleaseAsset) : String → Option ReleaseAsset :=
  assets.foldl (fun m a => fun k => if k = sv a.name then some a else m k) (fun _ => none)

/-- `syncAsset` from main.go (lines 200-247): stat the source (any stat
error is "missing": skip if optional, else fail); if an asset of the same
`githubName` exists remotely, compare sizes (unequal fails, equal skips);
otherwise open the file and upload it under `githubName`. -/
def syncAsset (w : World) (assetMapping : AssetMapping)
    (assets : String → Option ReleaseAsset) : Except GoErr Unit × List Call :=
  match w.stat assetMapping.source with
  | .error e =>
    if !assetMapping.optional then
      (.error (.statFailed assetMapping.source e), [])
    else
      (.ok (), [])
  | .ok srcSize =>
    match assets assetMapping.githubName with
    | some existing =>
      if iv existing.size ≠ srcSize then
        (.error (.assetConflict assetMapping.githubName), [])
      else
        (.ok (), [])
    | none =>
      match w.openFile assetMapping.source with
      | .error e => (.error (.openFailed assetMapping.source e), [])
      | .ok _ =>
        match w.upload assetMapping.githubName with
        | .error e =>
          (.error (.uploadFailed assetMapping.githubName e), [.upload assetMapping.githubName])
        | .ok _ => (.ok (), [.upload assetMapping.githubName])

/-- The asset loop of `DoRelease` (lines 173-179): run `syncAsset` on each
mapping in order, returning the first error and aborting the rest. -/
def syncAssets (w : World) (mappings : List AssetMapping)
    (assets : String → Option ReleaseAsset) : Except GoErr Unit × List Call :=
  match mappings with
  | [] => (.ok (), [])
  | m :: rest =>
    match syncAsset w m assets with
    | (.error e, tr) => (.error e, tr)
    | (.ok _, tr) =>
      let r := syncAssets w rest assets
      (r.1, tr ++ r.2)

/-- Lines 162-181 of main.go: given the found-or-created release, list its
assets, index them, and run the asset loop. `tr` is the trace accumulated
so far. -/
def doReleaseAssets (w : World) (cfg : Config) (found : RepositoryRelease)
    (tr : List Call) : Except GoErr Unit × List Call :=
  match w.listReleaseAssets (i64v found.id) with
  | .error e => (.error (.listAssetsFailed e), tr ++ [.listReleaseAssets (i64v found.id)])
  | .ok assets =>
    let r := syncAssets w cfg.assets (buildAssetMap assets)
    (r.1, tr ++ [.listReleaseAssets (i64v found.id)] ++ r.2)

/-- `DoRelease` from main.go (lines 123-182): list releases, find the tag
(last match wins); when absent, resolve the target and create a draft
release; then reconcile assets. -/
def DoRelease (w : World) (cfg : Config) (tag target : String) :
    Except GoErr Unit × List Call :=
  match w.listReleases with
  | .error e => (.error (.listReleasesFailed e), [.listReleases])
  | .ok releases =>
    match findRelease releases tag with
    | some found => doReleaseAssets w cfg found [.listReleases]
    | none =>
      match resolveTarget w tag target with
      | .error e => (.error e, [.listReleases])
      | .ok tgt =>
        match w.createRelease (newDraftRelease tag tgt) with
        | .error e =>
          (.error (.createFailed e), [.listReleases, .createRelease (newDraftRelease tag tgt)])
        | .ok created =>
          doReleaseAssets w cfg created [.listReleases, .createRelease (newDraftRelease tag tgt)]

/-- The two credential modes of main.go lines 94-111. -/
inductive Credentials where
  | accessToken (token : String)
  | basicAuth (user password : String)
deriving DecidableEq, Repr

/-- Lines 94-111 of main.go: a non-empty `GITHUB_TOKEN` selects token auth;
otherwise a non-empty `GITHUB_USER` and `GITHUB_PASSWORD` pair selects basic
auth; otherwise there are no usable credentials (`glog.Fatalf`). -/
def selectCredentials (githubAccessToken githubUser githubPassword : String) :
    Option Credentials :=
  if githubAccessToken ≠ "" then
    some (.accessToken githubAccessToken)
  else if githubUser ≠ "" ∧ githubPassword ≠ "" then
    some (.basicAuth githubUser githubPassword)
  else
    none

/-- The credential phase of `main` followed by `DoRelease` (lines 94-115):
with no usable credentials the process dies before any registry call
(empty trace); otherwise it proceeds to `DoRelease`. -/
def mainRun (githubAccessToken githubUser githubPassword : String)
    (w : World) (cfg : Config) (tag target : String) : Except GoErr Unit × List Call :=
  match selectCredentials githubAccessToken githubUser githubPassword with
  | none => (.error .credentialsMissing, [])
  | some _ => DoRelease w cfg tag target

/-- The release records passed to `CreateRelease` within a trace. -/
def createCalls (tr : List Call) : List RepositoryRelease :=
  tr.filterMap fun c =>
    match c with
    | .createRelease release => some release
    | _ => none

/-- The asset names passed to `UploadReleaseAsset` within a trace. -/
def uploadCalls (tr : List Call) : List String :=
  tr.filterMap fun c =>
    match c with
    | .upload nm => some nm
    | _ => none

/-! ## Concrete test fixtures -/

/-- A world in which every external call fails: the registry refuses every
call, local files are absent, the git subprocess fails. -/
def noNetWorld : World where
  listReleases := .error "connection refused"
  createRelease := fun _ => .error "connection refused"
  listReleaseAssets := fun _ => .error "connection refused"
  upload := fun _ => .error "connection refused"
  stat := fun _ => .error "no such file or directory"
  openFile := fun _ => .error "no such file or directory"
  gitRevList := .error "exit status 128"

/-- A world with no releases yet, a registry that accepts every call, absent
local files and a git subprocess printing a fixed sha with a newline. -/
def stubWorld : World where
  listReleases := .ok []
  createRelease := fun r => .ok r
  listReleaseAssets := fun _ => .ok []
  upload := fun nm => .ok { name := some nm, size := some 0 }
  stat := fun _ => .error "no such file or directory"
  openFile := fun _ => .ok ()
  gitRevList := .ok "0123456789abcdef0123456789abcdef01234567\n"

/-- A configuration with no asset mappings. -/
def emptyConfig : Config where
  owner := "kopeio"
  repo := "shipbot"
  assets := []

/-- A release tagged `v1.0.0` with id 1. -/
def releaseV1a : RepositoryRelease := { id := some 1, tagName := some "v1.0.0" }

/-- A second release with the same tag `v1.0.0`, id 2. -/
def releaseV1b : RepositoryRelease := { id := some 2, tagName := some "v1.0.0" }

/-- A world whose release list holds two releases with the same tag. -/
def twoReleaseWorld : World := { stubWorld with listReleases := .ok [releaseV1a, releaseV1b] }

/-- A required asset mapping. -/
def binMapping : AssetMapping := { source := "dist/bin", githubName := "bin", optional := false }

/-- A world where every local file stats at 5 bytes. -/
def statOkWorld : World := { stubWorld with stat := fun _ => .ok 5 }

/-- The empty remote asset index. -/
def noAssetMap : String → Option ReleaseAsset := fun _ => none

/-- A remote asset of 7 bytes named `bin`. -/
def conflictAsset : ReleaseAsset := { name := some "bin", size := some 7 }

/-- A remote index answering `conflictAsset` for every name. -/
def conflictAssetMap : String → Option ReleaseAsset := fun _ => some conflictAsset

/-- A remote asset whose `Size` field is nil. -/
def nilSizeAsset : ReleaseAsset := { name := some "bin", size := none }

/-- A remote index answering `nilSizeAsset` for every name. -/
def nilSizeAssetMap : String → Option ReleaseAsset := fun _ => some nilSizeAsset

/-- A remote index holding a 5-byte asset under every name. -/
def fullAssetMap : String → Option ReleaseAsset := fun _ => some { name := some "bin", size := some 5 }

/-! ## Helper lemmas -/

theorem createCalls_append (t1 t2 : List Call) :
    createCalls (t1 ++ t2) = createCalls t1 ++ createCalls t2 :=
  List.filterMap_append t1 t2 _

theorem uploadCalls_append (t1 t2 : List Call) :
    uploadCalls (t1 ++ t2) = uploadCalls t1 ++ uploadCalls t2 :=
  List.filterMap_append t1 t2 _

/-- A `foldl` that replaces its accumulator on every match returns the last
matching element (or the initial accumulator when there is none). -/
theorem foldl_lastWins {α : Type} (p : α → Prop) [DecidablePred p] (l : List α) :
    ∀ init : Option α,
      l.foldl (fun found x => if p x then some x else found) init
        = ((l.filter fun x => decide (p x)).getLast?).elim init some := by
  induction l with
  | nil => intro init; rfl
  | cons a t ih =>
    intro init
    rw [List.foldl_cons, ih]
    by_cases h : p a
    · simp only [List.filter_cons, decide_eq_true_eq, if_pos h, List.getLast?_cons]
      cases hg : (t.filter fun x => decide (p x)).getLast? with
      | none => simp [hg, h]
      | some x => simp [hg]
    · simp only [List.filter_cons, decide_eq_true_eq, if_neg h]

/-- `findRelease` returns the last release in list order whose unwrapped
`tagName` equals the tag. -/
theorem findRelease_eq_lastMatch (releases : List RepositoryRelease) (tag : String) :
    findRelease releases tag
      = (releases.filter fun r => decide (sv r.tagName = tag)).getLast? := by
  unfold findRelease
  rw [foldl_lastWins (fun r => sv r.tagName = tag) releases none]
  cases (releases.filter fun r => decide (sv r.tagName = tag)).getLast? <;> rfl

/-- A single `syncAsset` step performs no creation call. -/
theorem createCalls_syncAsset (w : World) (m : AssetMapping)
    (assets : String → Option ReleaseAsset) :
    createCalls (syncAsset w m assets).2 = [] := by
  unfold syncAsset
  rcases w.stat m.source with e | srcSize
  · cases m.optional <;> simp [createCalls]
  · rcases assets m.githubName with _ | ex
    · rcases w.openFile m.source with e | u
      · simp [createCalls]
      · rcases w.upload m.githubName with e | a <;> simp [createCalls]
    · by_cases hsz : iv ex.size ≠ srcSize <;> simp [hsz, createCalls]

/-- The asset loop performs no creation call. -/
theorem createCalls_syncAssets (w : World) (mappings : List AssetMapping)
    (assets : String → Option ReleaseAsset) :
    createCalls (syncAssets w mappings assets).2 = [] := by
  induction mappings with
  | nil => rfl
  | cons m rest ih =>
    have hm := createCalls_syncAsset w m assets
    cases hsync : syncAsset w m assets with
    | mk res tr =>
      rw [hsync] at hm
      cases res with
      | error e => simp [syncAssets, hsync, hm]
      | ok u => simp [syncAssets, hsync, createCalls_append, hm, ih]

/-- Listing and reconciling assets performs no creation call beyond those
already in the accumulated trace. -/
theorem createCalls_doReleaseAssets (w : World) (cfg : Config)
    (found : RepositoryRelease) (tr : List Call) :
    createCalls (doReleaseAssets w cfg found tr).2 = createCalls tr := by
  unfold doReleaseAssets
  rcases w.listReleaseAssets (i64v found.id) with e | assets
  · simp only [createCalls_append]
    simp [createCalls]
  · simp only [createCalls_append, createCalls_syncAssets]
    simp [createCalls]

/-- Splitting the asset loop around a successful prefix. -/
theorem syncAssets_append (w : World) (assets : String → Option ReleaseAsset)
    (pre post : List AssetMapping)
    (hpre : (syncAssets w pre assets).1 = .ok ()) :
    syncAssets w (pre ++ post) assets =
      ((syncAssets w post assets).1,
        (syncAssets w pre assets).2 ++ (syncAssets w post assets).2) := by
  induction pre with
  | nil => simp [syncAssets]
  | cons m rest ih =>
    cases hsync : syncAsset w m assets with
    | mk res tr =>
      cases res with
      | error e => simp [syncAssets, hsync] at hpre
      | ok u =>
        have hrest : (syncAssets w rest assets).1 = .ok () := by
          simpa [syncAssets, hsync] using hpre
        simp [syncAssets, hsync, ih hrest]

/-- The first element surviving `dropWhile` fails the predicate. -/
theorem dropWhile_head_not {α : Type} (q : α → Bool) (l : List α) (a : α)
    (t : List α) (h : l.dropWhile q = a :: t) : q a = false := by
  induction l with
  | nil => simp at h
  | cons x xs ih =>
    rw [List.dropWhile_cons] at h
    by_cases hx : q x = true
    · rw [if_pos hx] at h
      exact ih h
    · rw [if_neg hx] at h
      cases h
      simpa using hx

/-- `dropWhile` is idempotent. -/
theorem dropWhile_idem {α : Type} (q : α → Bool) (l : List α) :
    (l.dropWhile q).dropWhile q = l.dropWhile q := by
  cases h : l.dropWhile q with
  | nil => rfl
  | cons a t => simp [List.dropWhile_cons, dropWhile_head_not q l a t h]

/-- Trimming cannot lengthen the front-dropped list. -/
theorem trimSpaceList_length_le (l : List Char) :
    (trimSpaceList l).length ≤ (l.dropWhile goIsSpace).length := by
  unfold trimSpaceList
  rw [List.length_reverse]
  calc ((l.dropWhile goIsSpace).reverse.dropWhile goIsSpace).length
      ≤ (l.dropWhile goIsSpace).reverse.length :=
        (List.dropWhile_suffix _).length_le
    _ = (l.dropWhile goIsSpace).length := List.length_reverse _

/-- A fully trimmed list has no leading whitespace. -/
theorem dropWhile_eq_self_of_trim (l : List Char) (h : trimSpaceList l = l) :
    l.dropWhile goIsSpace = l := by
  apply (List.dropWhile_suffix (l := l) goIsSpace).eq_of_length
  have h1 := (List.dropWhile_suffix (l := l) goIsSpace).length_le
  have h2 := trimSpaceList_length_le l
  rw [h] at h2
  omega

/-- A fully trimmed list has no trailing whitespace. -/
theorem dropWhile_reverse_eq_of_trim (l : List Char) (h : trimSpaceList l = l) :
    l.reverse.dropWhile goIsSpace = l.reverse := by
  have hd := dropWhile_eq_self_of_trim l h
  have h2 : (l.reverse.dropWhile goIsSpace).reverse = l := by
    calc (l.reverse.dropWhile goIsSpace).reverse
        = trimSpaceList l := by unfold trimSpaceList; rw [hd]
      _ = l := h
  calc l.reverse.dropWhile goIsSpace
      = ((l.reverse.dropWhile goIsSpace).reverse).reverse :=
        (List.reverse_reverse _).symm
    _ = l.reverse := by rw [h2]

/-- `strings.TrimSpace` is idempotent (list form). -/
theorem trimSpaceList_idem (l : List Char) :
    trimSpaceList (trimSpaceList l) = trimSpaceList l := by
  have ht : trimSpaceList l
      = ((l.dropWhile goIsSpace).reverse.dropWhile goIsSpace).reverse := rfl
  have hfront : (trimSpaceList l).dropWhile goIsSpace = trimSpaceList l := by
    cases hc : trimSpaceList l with
    | nil => rfl
    | cons a t' =>
      have hs : (l.dropWhile goIsSpace).reverse.dropWhile goIsSpace
          = (a :: t').reverse := by
        have h1 : ((l.dropWhile goIsSpace).reverse.dropWhile goIsSpace).reverse
            = a :: t' := by rw [← ht, hc]
        have h2 := congrArg List.reverse h1
        simpa using h2
      obtain ⟨pre, hpre⟩ :=
        List.dropWhile_suffix (l := (l.dropWhile goIsSpace).reverse) goIsSpace
      have hza : ((l.dropWhile goIsSpace).reverse).getLast? = some a := by
        rw [← hpre, hs, List.getLast?_append]
        have hx : ((a :: t').reverse).getLast? = some a := by
          rw [← List.head?_reverse, List.reverse_reverse]; rfl
        rw [hx]; rfl
      have hma : (l.dropWhile goIsSpace).head? = some a := by
        have hr := List.head?_reverse (l := (l.dropWhile goIsSpace).reverse)
        rw [List.reverse_reverse] at hr
        rw [hr, hza]
      obtain ⟨rest, hrest⟩ : ∃ rest, l.dropWhile goIsSpace = a :: rest := by
        cases hm : l.dropWhile goIsSpace with
        | nil => rw [hm] at hma; simp at hma
        | cons x xs =>
          rw [hm, List.head?_cons] at hma
          injection hma with hx
          exact ⟨xs, by rw [hx]⟩
      have hqa : goIsSpace a = false := dropWhile_head_not goIsSpace l a rest hrest
      simp [List.dropWhile_cons, hqa]
  have hback : (trimSpaceList l).reverse.dropWhile goIsSpace
      = (trimSpaceList l).reverse := by
    rw [ht, List.reverse_reverse]
    exact dropWhile_idem goIsSpace (l.dropWhile goIsSpace).reverse
  calc trimSpaceList (trimSpaceList l)
      = (((trimSpaceList l).dropWhile goIsSpace).reverse.dropWhile goIsSpace).reverse :=
        rfl
    _ = ((trimSpaceList l).reverse.dropWhile goIsSpace).reverse := by rw [hfront]
    _ = ((trimSpaceList l).reverse).reverse := by rw [hback]
    _ = trimSpaceList l := List.reverse_reverse _

/-- `strings.TrimSpace` is idempotent (string form). -/
theorem trimSpace_idem (str : String) : trimSpace (trimSpace str) = trimSpace str :=
  congrArg String.mk (trimSpaceList_idem str.data)

/-- Appending a newline to a nonempty fully-trimmed list trims back to it. -/
theorem trimSpaceList_append_newline (l : List Char) (hl : l ≠ [])
    (htrim : trimSpaceList l = l) :
    trimSpaceList (l ++ ['\n']) = l := by
  have hfront := dropWhile_eq_self_of_trim l htrim
  have hback := dropWhile_reverse_eq_of_trim l htrim
  unfold trimSpaceList
  rw [List.dropWhile_append, hfront]
  rw [if_neg (by simpa using hl)]
  have hrev : (l ++ ['\n']).reverse = '\n' :: l.reverse := by simp
  rw [hrev, List.dropWhile_cons, if_pos (by decide)]
  rw [hback, List.reverse_reverse]

/-! ## Claim theorems -/

/-- C3: when the mapping's `githubName` matches an existing remote asset and
the local file's size differs from the remote asset's recorded size,
`syncAsset` fails with the asset-conflict error and performs no upload call
(empty trace, so the remote asset is never overwritten); when the sizes are
equal it returns success, again with no upload call. -/
theorem syncAsset_size_conflict (w : World) (m : AssetMapping)
    (assets : String → Option ReleaseAsset) (ex : ReleaseAsset) (srcSize : Int)
    (hstat : w.stat m.source = .ok srcSize)
    (hex : assets m.githubName = some ex) :
    (iv ex.size ≠ srcSize →
      syncAsset w m assets = (.error (.assetConflict m.githubName), []))
    ∧ (iv ex.size = srcSize → syncAsset w m assets = (.ok (), [])) := by
  constructor
  · intro hne; simp [syncAsset, hstat, hex, hne]
  · intro heq; simp [syncAsset, hstat, hex, heq]

/-- C8: any failure of the stat call on the source path — not only
file-not-found — is treated as a missing source: `syncAsset` succeeds with
no call at all (in particular no registry contact) when the mapping is
optional, and fails with the missing-source error when it is required. -/
theorem syncAsset_stat_error_missing (w : World) (m : AssetMapping)
    (assets : String → Option ReleaseAsset) (e : String)
    (hstat : w.stat m.source = .error e) :
    syncAsset w m assets =
      if m.optional then (.ok (), []) else (.error (.statFailed m.source e), []) := by
  cases hopt : m.optional <;> simp [syncAsset, hstat, hopt]

/-- C9: an existing remote asset whose `Size` field is nil is treated as
having recorded size 0: `syncAsset` skips (no upload) exactly when the local
file is 0 bytes, and otherwise fails with the size-mismatch error. -/
theorem syncAsset_nil_size (w : World) (m : AssetMapping)
    (assets : String → Option ReleaseAsset) (ex : ReleaseAsset) (srcSize : Int)
    (hstat : w.stat m.source = .ok srcSize)
    (hex : assets m.githubName = some ex)
    (hnil : ex.size = none) :
    (srcSize = 0 → syncAsset w m assets = (.ok (), []))
    ∧ (srcSize ≠ 0 → syncAsset w m assets = (.error (.assetConflict m.githubName), [])) := by
  constructor
  · intro h0; simp [syncAsset, hstat, hex, hnil, iv, h0]
  · intro hne; simp [syncAsset, hstat, hex, hnil, iv]
    intro h; exact absurd h.symm hne

/-- C5: a required asset mapping whose source file is missing makes
`syncAsset` fail with the missing-source error while performing no call at
all (no upload, no registry contact), and in the asset loop this first
failure aborts all subsequent mappings: the loop returns that error and its
trace is exactly the successful prefix's calls. -/
theorem syncAsset_required_missing_aborts (w : World) (m : AssetMapping)
    (assets : String → Option ReleaseAsset) (e : String)
    (pre post : List AssetMapping)
    (hstat : w.stat m.source = .error e)
    (hreq : m.optional = false)
    (hpre : (syncAssets w pre assets).1 = .ok ()) :
    syncAsset w m assets = (.error (.statFailed m.source e), [])
    ∧ syncAssets w (pre ++ m :: post) assets =
        (.error (.statFailed m.source e), (syncAssets w pre assets).2) := by
  have h1 : syncAsset w m assets = (.error (.statFailed m.source e), []) := by
    simp [syncAsset, hstat, hreq]
  refine ⟨h1, ?_⟩
  rw [syncAssets_append w assets pre (m :: post) hpre]
  simp [syncAssets, h1]

/-- C7 counterexample: with BOTH credential modes resolvable (non-empty
token and complete user/password pair) — hence not exactly one — the run
does not exit before a network call: token auth is selected and the
release-listing call is made (here failing with the registry error, not the
credentials error). -/
theorem mainRun_two_modes_proceeds :
    selectCredentials "tok" "alice" "hunter2" = some (Credentials.accessToken "tok")
    ∧ (mainRun "tok" "alice" "hunter2" noNetWorld emptyConfig "v1.0.0" "").2
        = [Call.listReleases]
    ∧ (mainRun "tok" "alice" "hunter2" noNetWorld emptyConfig "v1.0.0" "").1
        = .error (.listReleasesFailed "connection refused") :=
  ⟨rfl, rfl, rfl⟩

/-- C7 (amended): at least one credential mode must be resolvable, the
access token taking precedence when both are set; credentials are
unresolvable exactly when the token is empty and the user/password pair is
incomplete, and in that case the run fails with the credentials error
before any call (empty trace). -/
theorem mainRun_requires_credentials (tok u pw : String) (w : World)
    (cfg : Config) (tag target : String) :
    (selectCredentials tok u pw = none ↔ tok = "" ∧ (u = "" ∨ pw = ""))
    ∧ (tok ≠ "" → selectCredentials tok u pw = some (.accessToken tok))
    ∧ (selectCredentials tok u pw = none →
        mainRun tok u pw w cfg tag target = (.error .credentialsMissing, [])) := by
  refine ⟨?_, ?_, ?_⟩
  · unfold selectCredentials
    split_ifs with h1 h2 <;> simp_all
    tauto
  · intro h; simp [selectCredentials, h]
  · intro h; simp [mainRun, h]

/-- C6 counterexample: a 41-character subprocess output — a 40-character
sha followed by a trailing newline — is accepted by `findCommitSha`, so it
is not the case that every output of length ≠ 41 resp. ≠ 40 fails. -/
theorem findCommitSha_accepts_length_41 :
    ("0123456789abcdef0123456789abcdef01234567\n" : String).length = 41
    ∧ findCommitSha (.ok "0123456789abcdef0123456789abcdef01234567\n")
        = .ok "0123456789abcdef0123456789abcdef01234567" :=
  ⟨rfl, rfl⟩

/-- C6 (amended): `findCommitSha` returns the bad-length resolution error
for every subprocess output whose whitespace-trimmed form does not have
length 40 — including the empty string — even when the subprocess itself
succeeded (`.ok`); raw outputs of other lengths whose trimmed form has
length 40, such as a sha plus trailing newline, are accepted instead. -/
theorem findCommitSha_rejects_bad_trimmed_length (out : String)
    (h : (trimSpace out).length ≠ 40) :
    findCommitSha (.ok out) = .error (.badLength (trimSpace out)) := by
  simp [findCommitSha, h]

/-- C1: for a tag absent from the fetched release list, `DoRelease` makes
exactly one release-creation call in the whole run; its record has
`tagName` and `name` equal to the tag, body `"Release " ++ tag ++ " (draft)"`,
`draft = true`, and `targetCommitish` equal to the explicitly supplied
target when that is non-empty, else to the commit sha resolved from the
tag. -/
theorem doRelease_creates_single_draft (w : World) (cfg : Config)
    (tag target : String) (releases : List RepositoryRelease) (tgt : String)
    (hlist : w.listReleases = .ok releases)
    (habsent : ∀ r ∈ releases, sv r.tagName ≠ tag)
    (hres : resolveTarget w tag target = .ok tgt) :
    createCalls (DoRelease w cfg tag target).2 = [newDraftRelease tag tgt]
    ∧ (target ≠ "" → tgt = target)
    ∧ (target = "" → findCommitSha w.gitRevList = .ok tgt)
    ∧ newDraftRelease tag tgt =
        { tagName := some tag, targetCommitish := some tgt, name := some tag,
          body := some ("Release " ++ tag ++ " (draft)"), draft := some true,
          id := none } := by
  have hfilter : releases.filter (fun r => decide (sv r.tagName = tag)) = [] := by
    rw [List.filter_eq_nil_iff]
    intro r hr
    simpa using habsent r hr
  have hfound : findRelease releases tag = none := by
    rw [findRelease_eq_lastMatch, hfilter]; rfl
  have htrace : createCalls (DoRelease w cfg tag target).2 = [newDraftRelease tag tgt] := by
    simp only [DoRelease, hlist, hfound, hres]
    rcases hc : w.createRelease (newDraftRelease tag tgt) with e | created
    · simp [createCalls]
    · rw [createCalls_doReleaseAssets]
      simp [createCalls]
  refine ⟨htrace, ?_, ?_, rfl⟩
  · intro hne
    unfold resolveTarget at hres
    rw [if_neg hne] at hres
    injection hres with h
    exact h.symm
  · intro h0
    unfold resolveTarget at hres
    rw [if_pos h0] at hres
    rcases hsha : findCommitSha w.gitRevList with e | sha
    · rw [hsha] at hres; simp at hres
    · rw [hsha] at hres
      injection hres with h
      rw [h]

/-- C2: when at least one fetched release carries the tag, `DoRelease`
performs zero release-creation calls and proceeds (listing and reconciling
assets) with the last matching release in list order. -/
theorem doRelease_found_skips_create (w : World) (cfg : Config)
    (tag target : String) (releases : List RepositoryRelease)
    (found : RepositoryRelease)
    (hlist : w.listReleases = .ok releases)
    (hlast : (releases.filter fun r => decide (sv r.tagName = tag)).getLast?
        = some found) :
    createCalls (DoRelease w cfg tag target).2 = []
    ∧ DoRelease w cfg tag target = doReleaseAssets w cfg found [.listReleases] := by
  have hfind : findRelease releases tag = some found := by
    rw [findRelease_eq_lastMatch]; exact hlast
  have heq : DoRelease w cfg tag target = doReleaseAssets w cfg found [.listReleases] := by
    simp only [DoRelease, hlist, hfind]
  refine ⟨?_, heq⟩
  rw [heq, createCalls_doReleaseAssets]
  rfl

/-- C10: `findCommitSha` trims leading and trailing whitespace from the
subprocess output before the 40-character length check: every commit id it
returns is the trimmed output, has length exactly 40, and has no
surrounding whitespace (trimming it again changes nothing); conversely a
40-character sha with no surrounding whitespace followed by a trailing
newline is accepted, returning the sha. -/
theorem findCommitSha_trims_output (out sha : String) :
    (findCommitSha (.ok out) = .ok sha →
      sha = trimSpace out ∧ sha.length = 40 ∧ trimSpace sha = sha)
    ∧ (sha.length = 40 → trimSpace sha = sha →
      findCommitSha (.ok (sha ++ "\n")) = .ok sha) := by
  constructor
  · intro h
    simp only [findCommitSha] at h
    by_cases hlen : (trimSpace out).length ≠ 40
    · rw [if_pos hlen] at h
      simp at h
    · rw [if_neg hlen] at h
      injection h with h1
      push_neg at hlen
      refine ⟨h1.symm, ?_, ?_⟩
      · rw [← h1]; exact hlen
      · rw [← h1]; exact trimSpace_idem out
  · intro hlen htrim
    have hdata : trimSpaceList sha.data = sha.data := congrArg String.data htrim
    have hlen' : sha.data.length = 40 := hlen
    have hne : sha.data ≠ [] := by
      intro hnil
      rw [hnil] at hlen'
      simp at hlen'
    have htl := trimSpaceList_append_newline sha.data hne hdata
    have hmk : (⟨sha.data⟩ : String) = sha := by
      cases sha
      rfl
    have htrimapp : trimSpace (sha ++ "\n") = sha := by
      unfold trimSpace
      rw [String.data_append]
      have hnl : ("\n" : String).data = ['\n'] := rfl
      rw [hnl, htl, hmk]
    simp [findCommitSha, htrimapp, hlen]

/-- C4: idempotence of the asset-sync loop. If one run over the mappings
succeeds, and the second run sees the same world (unchanged local files)
and a remote asset index that still has every previously present name and
now also has every name the first run uploaded, then the second run
performs zero upload calls. -/
theorem syncAssets_idempotent (w : World) (mappings : List AssetMapping)
    (am am2 : String → Option ReleaseAsset)
    (hfirst : (syncAssets w mappings am).1 = .ok ())
    (hstate : ∀ nm, ((am nm).isSome ∨ Call.upload nm ∈ (syncAssets w mappings am).2) →
      (am2 nm).isSome) :
    uploadCalls (syncAssets w mappings am2).2 = [] := by
  revert hfirst hstate
  induction mappings with
  | nil => intro _ _; rfl
  | cons m rest ih =>
    intro hfirst hstate
    cases hsync : syncAsset w m am with
    | mk res1 tr1 =>
      cases res1 with
      | error e =>
        exfalso
        simp [syncAssets, hsync] at hfirst
      | ok u =>
        cases u
        have hwhole : syncAssets w (m :: rest) am
            = ((syncAssets w rest am).1, tr1 ++ (syncAssets w rest am).2) := by
          simp [syncAssets, hsync]
        have hrest1 : (syncAssets w rest am).1 = .ok () := by
          rw [hwhole] at hfirst
          exact hfirst
        have hstate2 : ∀ nm,
            ((am nm).isSome ∨ Call.upload nm ∈ (syncAssets w rest am).2) →
            (am2 nm).isSome := by
          intro nm hnm
          apply hstate nm
          rcases hnm with hnm | hnm
          · exact Or.inl hnm
          · refine Or.inr ?_
            rw [hwhole]
            exact List.mem_append_right tr1 hnm
        rcases hstat : w.stat m.source with e | sz
        · have hopt : m.optional = true := by
            cases hmo : m.optional
            · exfalso; simp [syncAsset, hstat, hmo] at hsync
            · rfl
          have hs2 : syncAsset w m am2 = (.ok (), []) := by
            simp [syncAsset, hstat, hopt]
          have hrw : syncAssets w (m :: rest) am2
              = ((syncAssets w rest am2).1, [] ++ (syncAssets w rest am2).2) := by
            simp [syncAssets, hs2]
          rw [hrw]
          simp only [List.nil_append]
          exact ih hrest1 hstate2
        · rcases hex : am m.githubName with _ | ex
          · rcases hopen : w.openFile m.source with eo | uo
            · exfalso; simp [syncAsset, hstat, hex, hopen] at hsync
            · rcases hupl : w.upload m.githubName with eu | ra
              · exfalso; simp [syncAsset, hstat, hex, hopen, hupl] at hsync
              · have htr1 : tr1 = [Call.upload m.githubName] := by
                  have hcopy := hsync
                  simp [syncAsset, hstat, hex, hopen, hupl] at hcopy
                  exact hcopy.symm
                have hupmem : Call.upload m.githubName ∈ (syncAssets w (m :: rest) am).2 := by
                  rw [hwhole, htr1]
                  exact List.mem_append_left _ (by simp)
                have h2 : (am2 m.githubName).isSome :=
                  hstate m.githubName (Or.inr hupmem)
                obtain ⟨ex2, hex2⟩ := Option.isSome_iff_exists.mp h2
                by_cases hsz2 : iv ex2.size = sz
                · have hs2 : syncAsset w m am2 = (.ok (), []) := by
                    simp [syncAsset, hstat, hex2, hsz2]
                  have hrw : syncAssets w (m :: rest) am2
                      = ((syncAssets w rest am2).1, [] ++ (syncAssets w rest am2).2) := by
                    simp [syncAssets, hs2]
                  rw [hrw]
                  simp only [List.nil_append]
                  exact ih hrest1 hstate2
                · have hs2 : syncAsset w m am2
                      = (.error (.assetConflict m.githubName), []) := by
                    simp [syncAsset, hstat, hex2, hsz2]
                  have hrw : syncAssets w (m :: rest) am2
                      = (.error (.assetConflict m.githubName), []) := by
                    simp [syncAssets, hs2]
                  rw [hrw]
                  rfl
          · have hsz1 : iv ex.size = sz := by
              by_contra hne
              simp [syncAsset, hstat, hex, hne] at hsync
            have h2 : (am2 m.githubName).isSome :=
              hstate m.githubName (Or.inl (by rw [hex]; rfl))
            obtain ⟨ex2, hex2⟩ := Option.isSome_iff_exists.mp h2
            by_cases hsz2 : iv ex2.size = sz
            · have hs2 : syncAsset w m am2 = (.ok (), []) := by
                simp [syncAsset, hstat, hex2, hsz2]
              have hrw : syncAssets w (m :: rest) am2
                  = ((syncAssets w rest am2).1, [] ++ (syncAssets w rest am2).2) := by
                simp [syncAssets, hs2]
              rw [hrw]
              simp only [List.nil_append]
              exact ih hrest1 hstate2
            · have hs2 : syncAsset w m am2
                  = (.error (.assetConflict m.githubName), []) := by
                simp [syncAsset, hstat, hex2, hsz2]
              have hrw : syncAssets w (m :: rest) am2
                  = (.error (.assetConflict m.githubName), []) := by
                simp [syncAssets, hs2]
              rw [hrw]
              rfl

/-! ## Witnesses: the claim theorems applied at concrete inputs -/

/-- Witness for C1: an empty release list, tag `v1.0.0`, no explicit target;
the single creation call carries the draft record with the resolved sha. -/
theorem doRelease_creates_single_draft_witness :
    createCalls (DoRelease stubWorld emptyConfig "v1.0.0" "").2
        = [newDraftRelease "v1.0.0" "0123456789abcdef0123456789abcdef01234567"]
    ∧ (("" : String) ≠ "" →
        "0123456789abcdef0123456789abcdef01234567" = "")
    ∧ (("" : String) = "" → findCommitSha stubWorld.gitRevList
        = .ok "0123456789abcdef0123456789abcdef01234567")
    ∧ newDraftRelease "v1.0.0" "0123456789abcdef0123456789abcdef01234567"
        = { tagName := some "v1.0.0",
            targetCommitish := some "0123456789abcdef0123456789abcdef01234567",
            name := some "v1.0.0",
            body := some ("Release " ++ "v1.0.0" ++ " (draft)"),
            draft := some true, id := none } :=
  doRelease_creates_single_draft stubWorld emptyConfig "v1.0.0" "" []
    "0123456789abcdef0123456789abcdef01234567" rfl (by simp) rfl

/-- Witness for C2: two releases share the tag; no creation call happens and
the run proceeds with the later one. -/
theorem doRelease_found_skips_create_witness :
    createCalls (DoRelease twoReleaseWorld emptyConfig "v1.0.0" "").2 = []
    ∧ DoRelease twoReleaseWorld emptyConfig "v1.0.0" ""
        = doReleaseAssets twoReleaseWorld emptyConfig releaseV1b [.listReleases] :=
  doRelease_found_skips_create twoReleaseWorld emptyConfig "v1.0.0" ""
    [releaseV1a, releaseV1b] releaseV1b rfl (by decide)

/-- Witness for C3: a 5-byte local file against a 7-byte remote asset. -/
theorem syncAsset_size_conflict_witness :
    (iv conflictAsset.size ≠ (5 : Int) →
      syncAsset statOkWorld binMapping conflictAssetMap
        = (.error (.assetConflict binMapping.githubName), []))
    ∧ (iv conflictAsset.size = (5 : Int) →
      syncAsset statOkWorld binMapping conflictAssetMap = (.ok (), [])) :=
  syncAsset_size_conflict statOkWorld binMapping conflictAssetMap conflictAsset 5 rfl rfl

/-- Witness for C4: after a run that uploaded `bin`, a second run whose
index has the asset performs zero uploads. -/
theorem syncAssets_idempotent_witness :
    uploadCalls (syncAssets statOkWorld [binMapping] fullAssetMap).2 = [] :=
  syncAssets_idempotent statOkWorld [binMapping] noAssetMap fullAssetMap rfl
    (fun _ _ => rfl)

/-- Witness for C5: a required mapping with a missing source fails with the
missing-source error and an empty trace, aborting the loop. -/
theorem syncAsset_required_missing_aborts_witness :
    syncAsset noNetWorld binMapping noAssetMap
        = (.error (.statFailed binMapping.source "no such file or directory"), [])
    ∧ syncAssets noNetWorld ([] ++ binMapping :: []) noAssetMap
        = (.error (.statFailed binMapping.source "no such file or directory"),
            (syncAssets noNetWorld [] noAssetMap).2) :=
  syncAsset_required_missing_aborts noNetWorld binMapping noAssetMap
    "no such file or directory" [] [] rfl rfl rfl

/-- Witness for C6 (amended): the empty output trims to length 0 and is
rejected with the bad-length error. -/
theorem findCommitSha_rejects_bad_trimmed_length_witness :
    findCommitSha (.ok "") = .error (.badLength (trimSpace "")) :=
  findCommitSha_rejects_bad_trimmed_length "" (by decide)

/-- Witness for C7 (amended): with an empty environment the run fails with
the credentials error and an empty trace. -/
theorem mainRun_requires_credentials_witness :
    (selectCredentials "" "" "" = none ↔
      ("" : String) = "" ∧ (("" : String) = "" ∨ ("" : String) = ""))
    ∧ (("" : String) ≠ "" → selectCredentials "" "" "" = some (.accessToken ""))
    ∧ (selectCredentials "" "" "" = none →
        mainRun "" "" "" noNetWorld emptyConfig "v1.0.0" ""
          = (.error .credentialsMissing, [])) :=
  mainRun_requires_credentials "" "" "" noNetWorld emptyConfig "v1.0.0" ""

/-- Witness for C8: a required mapping under a failing stat call. -/
theorem syncAsset_stat_error_missing_witness :
    syncAsset noNetWorld binMapping noAssetMap =
      if binMapping.optional then (.ok (), [])
      else (.error (.statFailed binMapping.source "no such file or directory"), []) :=
  syncAsset_stat_error_missing noNetWorld binMapping noAssetMap
    "no such file or directory" rfl

/-- Witness for C9: a nil-size remote asset against a 5-byte local file. -/
theorem syncAsset_nil_size_witness :
    ((5 : Int) = 0 → syncAsset statOkWorld binMapping nilSizeAssetMap = (.ok (), []))
    ∧ ((5 : Int) ≠ 0 → syncAsset statOkWorld binMapping nilSizeAssetMap
        = (.error (.assetConflict binMapping.githubName), [])) :=
  syncAsset_nil_size statOkWorld binMapping nilSizeAssetMap nilSizeAsset 5 rfl rfl rfl

/-- Witness for C10: the fixed 40-character sha with a trailing newline. -/
theorem findCommitSha_trims_output_witness :
    (findCommitSha (.ok "0123456789abcdef0123456789abcdef01234567\n")
        = .ok "0123456789abcdef0123456789abcdef01234567" →
      "0123456789abcdef0123456789abcdef01234567"
          = trimSpace "0123456789abcdef0123456789abcdef01234567\n"
        ∧ ("0123456789abcdef0123456789abcdef01234567" : String).length = 40
        ∧ trimSpace "0123456789abcdef0123456789abcdef01234567"
            = "0123456789abcdef0123456789abcdef01234567")
    ∧ (("0123456789abcdef0123456789abcdef01234567" : String).length = 40 →
        trimSpace "0123456789abcdef0123456789abcdef01234567"
          = "0123456789abcdef0123456789abcdef01234567" →
        findCommitSha (.ok ("0123456789abcdef0123456789abcdef01234567" ++ "\n"))
          = .ok "0123456789abcdef0123456789abcdef01234567") :=
  findCommitSha_trims_output "0123456789abcdef0123456789abcdef01234567\n"
    "0123456789abcdef0123456789abcdef01234567"

end Shipbot
